import Mathlib

/-!
Shallow embedding of the genSTEM image model (src/genSTEM/Model.py): the
probe-position builder with scan artifacts (line jitter, scan rotation,
linear drift with optional recentring) and the Gaussian intensity
synthesizer, together with theorems settling the specification's claims.
Floating-point arrays are modelled as real-valued functions of pixel
indices; numpy's ambient randomness is modelled by explicitly injected
streams of draws.
-/

namespace GenSTEM

noncomputable section

/-- numpy deg2rad: degrees to radians. -/
def deg2rad (d : ℝ) : ℝ := d * (Real.pi / 180)

/-- A 2x2 real matrix, row major: [[a, b], [c, d]]. -/
structure Mat2 where
  a : ℝ
  b : ℝ
  c : ℝ
  d : ℝ

/-- rotation_matrix (Model.py 235-241): counter-clockwise rotation matrix
[[c, -s], [s, c]] from a degree angle, transposed when clockwise_positive. -/
def rotation_matrix (deg : ℝ) (clockwise_positive : Bool) : Mat2 :=
  let c := Real.cos (deg2rad deg)
  let s := Real.sin (deg2rad deg)
  if clockwise_positive then { a := c, b := s, c := -s, d := c }
  else { a := c, b := -s, c := s, d := c }

/-- Gaussian2D (Model.py 204-226): symmetric 2D Gaussian
A * exp(-((x-xc)^2 + (y-yc)^2) / (2*sigma^2)). -/
def Gaussian2D (x y A xc yc sigma : ℝ) : ℝ :=
  A * Real.exp (-((x - xc) ^ 2 + (y - yc) ^ 2) / (2 * sigma ^ 2))

/-- Number of entries of numpy arange(start, stop, step) for positive step:
ceil((stop - start) / step), clamped at zero. -/
def arangeLen (start stop step : ℝ) : ℕ := (⌈(stop - start) / step⌉).toNat

/-- Entry k of numpy arange(start, stop, step): start + k * step. -/
def arangeVal (start step : ℝ) (k : ℕ) : ℝ := start + k * step

/-- The jitter strength argument: a python scalar or a 2-tuple. -/
inductive JStrength where
  | scalar : ℝ → JStrength
  | pair : ℝ → ℝ → JStrength

/-- X strength: the scalar itself, or the first tuple component. -/
def JStrength.sx : JStrength → ℝ
  | .scalar s => s
  | .pair sx _ => sx

/-- Y strength: the scalar itself, or the second tuple component. -/
def JStrength.sy : JStrength → ℝ
  | .scalar s => s
  | .pair _ sy => sy

/-- Python truthiness of the strength argument as used by
`if self.jitter_strength:`: a scalar is truthy iff nonzero, a (nonempty)
tuple is always truthy. -/
def JStrength.truthy : JStrength → Bool
  | .scalar s => if s = 0 then false else true
  | .pair _ _ => true

/-- add_line_jitter (Model.py 274-303): displacement field of shape
(2, ny, nx).  One uniform draw per scanline (row) and per enabled channel,
taken from the injected streams rh (horizontal call) and rv (vertical
call); the draw is mapped through strength * (2*u - 1) and broadcast
across the whole line.  The horizontal flag writes channel 0 (X), the
vertical flag channel 1 (Y). -/
def add_line_jitter (ny nx : ℕ) (strength : JStrength) (horizontal vertical : Bool)
    (rh rv : ℕ → ℝ) : (ℕ → ℕ → ℝ) × (ℕ → ℕ → ℝ) :=
  (fun i _j => if horizontal then strength.sx * (2 * rh i - 1) else 0,
   fun i _j => if vertical then strength.sy * (2 * rv i - 1) else 0)

/-- add_drift (Model.py 250-271): displacement field of shape (2, ny, nx).
The speed is divided by the total pixel count, the direction vector is
negated, and the pixel with row-major flattened index k = i*nx + j is
displaced by speed * (-v) * k on each channel. -/
def add_drift (ny nx : ℕ) (drift_vector : ℝ × ℝ) (drift_speed : ℝ) :
    (ℕ → ℕ → ℝ) × (ℕ → ℕ → ℝ) :=
  let speed := drift_speed / ((ny * nx : ℕ) : ℝ)
  (fun i j => speed * (-drift_vector.1) * ((i * nx + j : ℕ) : ℝ),
   fun i j => speed * (-drift_vector.2) * ((i * nx + j : ℕ) : ℝ))

/-- A (2, ny, nx) probe-position field: per-pixel X and Y coordinates. -/
structure Grid where
  ny : ℕ
  nx : ℕ
  X : ℕ → ℕ → ℝ
  Y : ℕ → ℕ → ℝ

/-- An ASE-style atoms object restricted to what the model reads:
2D projected positions and atomic numbers. -/
structure Atoms where
  positions : List (ℝ × ℝ)
  numbers : List ℝ

/-- Errors surfaced during ImageModel construction. -/
inductive InitError where
  | attributeError
  | valueErrorAmbiguousTruth

/-- Errors surfaced by the numeric backend. -/
inductive NpError where
  | zeroSizeReduction
  | shapeMismatch
  | emptyStack

/-- The positions/numbers branch of ImageModel.__init__ (Model.py 355-361):
`if not positions: raise AttributeError`.  positions=None raises
AttributeError; a nonempty numpy positions array makes `not positions`
itself raise ValueError (ambiguous truth value of a multi-element array);
only a size-zero array slips through. -/
def initFromPositions (positions : Option (List (ℝ × ℝ))) (numbers : Option (List ℝ)) :
    Except InitError (List (ℝ × ℝ) × List ℝ) :=
  match positions with
  | none => Except.error InitError.attributeError
  | some [] => Except.ok ([], numbers.getD [])
  | some ps => Except.error InitError.valueErrorAmbiguousTruth

/-- ImageModel.__init__ input selection (Model.py 352-361): `if atoms:` is
python truthiness, so a None or empty atoms object falls through to the
positions branch. -/
def imageModelInit (atoms : Option Atoms) (positions : Option (List (ℝ × ℝ)))
    (numbers : Option (List ℝ)) : Except InitError (List (ℝ × ℝ) × List ℝ) :=
  match atoms with
  | some a =>
    if a.positions.isEmpty then initFromPositions positions numbers
    else Except.ok (a.positions, a.numbers)
  | none => initFromPositions positions numbers

/-- The state of a constructed ImageModel (Model.py 343-384), with the
ambient numpy randomness of the jitter draws injected as streams rh, rv. -/
structure ImageModel where
  atom_positions : List (ℝ × ℝ)
  atom_numbers : List ℝ
  scan_rotation : ℝ := 0
  drift_speed : ℝ := 0
  drift_vector : ℝ × ℝ := (1, 0)
  pixel_size : ℝ := 0.1
  jitter_strength : JStrength := JStrength.scalar 0
  jitter_horizontal : Bool := true
  jitter_vertical : Bool := false
  sigma : ℝ := 0.4
  power : ℝ := 1.8
  centre_drift : Bool := true
  square : Bool := false
  margin : ℝ := 5.0
  rh : ℕ → ℝ := fun _ => 0
  rv : ℕ → ℝ := fun _ => 0

/-- numpy min over a nonempty axis, given head and tail. -/
def listMin (x : ℝ) (xs : List ℝ) : ℝ := xs.foldl min x

/-- numpy max over a nonempty axis, given head and tail. -/
def listMax (x : ℝ) (xs : List ℝ) : ℝ := xs.foldl max x

/-- Mean of the X channel over all pixels, numpy mean(axis=(-1,-2)). -/
def gridMeanX (g : Grid) : ℝ :=
  (∑ i in Finset.range g.ny, ∑ j in Finset.range g.nx, g.X i j) / ((g.ny * g.nx : ℕ) : ℝ)

/-- Mean of the Y channel over all pixels. -/
def gridMeanY (g : Grid) : ℝ :=
  (∑ i in Finset.range g.ny, ∑ j in Finset.range g.nx, g.Y i j) / ((g.ny * g.nx : ℕ) : ℝ)

/-- The index set of a (ny, nx) pixel array. -/
def pixelSet (ny nx : ℕ) : Finset (ℕ × ℕ) := Finset.range ny ×ˢ Finset.range nx

/-- numpy max over a (ny, nx) array of a per-pixel field. -/
def fieldMax (ny nx : ℕ) (f : ℕ → ℕ → ℝ) : ℝ :=
  if h : (pixelSet ny nx).Nonempty then (pixelSet ny nx).sup' h (fun p => f p.1 p.2) else 0

/-- numpy min over a (ny, nx) array of a per-pixel field. -/
def fieldMin (ny nx : ℕ) (f : ℕ → ℕ → ℝ) : ℝ :=
  if h : (pixelSet ny nx).Nonempty then (pixelSet ny nx).inf' h (fun p => f p.1 p.2) else 0

/-- Lower x bound of the padded atom bounding box (Model.py 400), for a
nonempty position list with head p and tail ps. -/
def bboxXlow (margin : ℝ) (p : ℝ × ℝ) (ps : List (ℝ × ℝ)) : ℝ :=
  listMin p.1 (ps.map Prod.fst) - margin

/-- Lower y bound of the padded atom bounding box (Model.py 400). -/
def bboxYlow (margin : ℝ) (p : ℝ × ℝ) (ps : List (ℝ × ℝ)) : ℝ :=
  listMin p.2 (ps.map Prod.snd) - margin

/-- Upper x bound of the padded atom bounding box (Model.py 401). -/
def bboxXhigh (margin : ℝ) (p : ℝ × ℝ) (ps : List (ℝ × ℝ)) : ℝ :=
  listMax p.1 (ps.map Prod.fst) + margin

/-- Upper y bound of the padded atom bounding box (Model.py 401). -/
def bboxYhigh (margin : ℝ) (p : ℝ × ℝ) (ps : List (ℝ × ℝ)) : ℝ :=
  listMax p.2 (ps.map Prod.snd) + margin

/-- Numerical stability pad scale = (xhigh - xlow)/100 (Model.py 402),
computed before the square adjustment and shared by both axes. -/
def bboxScale (margin : ℝ) (p : ℝ × ℝ) (ps : List (ℝ × ℝ)) : ℝ :=
  (bboxXhigh margin p ps - bboxXlow margin p ps) / 100

/-- Lower x range bound after the optional square adjustment (404-405). -/
def gridXlow (m : ImageModel) (p : ℝ × ℝ) (ps : List (ℝ × ℝ)) : ℝ :=
  if m.square then min (bboxXlow m.margin p ps) (bboxYlow m.margin p ps)
  else bboxXlow m.margin p ps

/-- Lower y range bound after the optional square adjustment (404-405). -/
def gridYlow (m : ImageModel) (p : ℝ × ℝ) (ps : List (ℝ × ℝ)) : ℝ :=
  if m.square then min (bboxXlow m.margin p ps) (bboxYlow m.margin p ps)
  else bboxYlow m.margin p ps

/-- Upper x range bound after the optional square adjustment (404, 406). -/
def gridXhigh (m : ImageModel) (p : ℝ × ℝ) (ps : List (ℝ × ℝ)) : ℝ :=
  if m.square then max (bboxXhigh m.margin p ps) (bboxYhigh m.margin p ps)
  else bboxXhigh m.margin p ps

/-- Upper y range bound after the optional square adjustment (404, 406). -/
def gridYhigh (m : ImageModel) (p : ℝ × ℝ) (ps : List (ℝ × ℝ)) : ℝ :=
  if m.square then max (bboxXhigh m.margin p ps) (bboxYhigh m.margin p ps)
  else bboxYhigh m.margin p ps

/-- Number of x samples: len(arange(xlow, xhigh+scale, pixel_size)) (407). -/
def gridNX (m : ImageModel) (p : ℝ × ℝ) (ps : List (ℝ × ℝ)) : ℕ :=
  arangeLen (gridXlow m p ps) (gridXhigh m p ps + bboxScale m.margin p ps) m.pixel_size

/-- Number of y samples: len(arange(ylow, yhigh+scale, pixel_size)) (408). -/
def gridNY (m : ImageModel) (p : ℝ × ℝ) (ps : List (ℝ × ℝ)) : ℕ :=
  arangeLen (gridYlow m p ps) (gridYhigh m p ps + bboxScale m.margin p ps) m.pixel_size

/-- Base probe grid (Model.py 400-410): padded bounding box, stability pad,
axis ranges by arange, and the meshgrid stacked with channel 0 = X varying
along columns and channel 1 = Y varying along rows.  numpy min/max of a
zero-size array raises, hence the error on an empty atom list. -/
def baseGrid (m : ImageModel) : Except NpError Grid :=
  match m.atom_positions with
  | [] => Except.error NpError.zeroSizeReduction
  | p :: ps =>
    Except.ok
      { ny := gridNY m p ps
        nx := gridNX m p ps
        X := fun _i j => arangeVal (gridXlow m p ps) m.pixel_size j
        Y := fun i _j => arangeVal (gridYlow m p ps) m.pixel_size i }

/-- Jitter step (Model.py 412-417): when the strength argument is truthy,
add the line-jitter field in place. -/
def jitterStage (m : ImageModel) (g : Grid) : Grid :=
  if m.jitter_strength.truthy then
    let J := add_line_jitter g.ny g.nx m.jitter_strength m.jitter_horizontal
      m.jitter_vertical m.rh m.rv
    { g with X := fun i j => g.X i j + J.1 i j, Y := fun i j => g.Y i j + J.2 i j }
  else g

/-- Rotation step (Model.py 419-424): when scan_rotation is nonzero, rotate
every sample of the current grid about the grid's per-channel mean. -/
def rotationStage (m : ImageModel) (g : Grid) : Grid :=
  if m.scan_rotation = 0 then g
  else
    let R := rotation_matrix m.scan_rotation false
    let mx := gridMeanX g
    let my := gridMeanY g
    { g with
      X := fun i j => R.a * (g.X i j - mx) + R.b * (g.Y i j - my) + mx
      Y := fun i j => R.c * (g.X i j - mx) + R.d * (g.Y i j - my) + my }

/-- The recentring offset (Model.py 433-434): whichever of the drift
field's max and min has, per axis, the larger magnitude. -/
def driftOffset (ny nx : ℕ) (f : ℕ → ℕ → ℝ) : ℝ :=
  if fieldMax ny nx f > -fieldMin ny nx f then fieldMax ny nx f else fieldMin ny nx f

/-- Drift step (Model.py 426-435): when drift_speed is nonzero, add the
drift field; when centre_drift also holds, subtract half of the per-axis
offset uniformly from every probe position. -/
def driftStage (m : ImageModel) (g : Grid) : Grid :=
  if m.drift_speed = 0 then g
  else
    let d := add_drift g.ny g.nx m.drift_vector m.drift_speed
    let gd : Grid :=
      { g with X := fun i j => g.X i j + d.1 i j, Y := fun i j => g.Y i j + d.2 i j }
    if m.centre_drift then
      { gd with
        X := fun i j => gd.X i j - driftOffset g.ny g.nx d.1 / 2
        Y := fun i j => gd.Y i j - driftOffset g.ny g.nx d.2 / 2 }
    else gd

/-- create_probe_positions (Model.py 398-435): base meshgrid, then jitter,
then rotation, then drift with optional recentring, in the source's fixed
order. -/
def create_probe_positions (m : ImageModel) : Except NpError Grid :=
  (baseGrid m).map (fun g0 =>
    let g1 := jitterStage m g0
    let g2 := rotationStage m g1
    driftStage m g2)

/-- Hypothetical variant of create_probe_positions that applies the scan
rotation before the line jitter (used to test order sensitivity). -/
def probe_positions_rotation_first (m : ImageModel) : Except NpError Grid :=
  (baseGrid m).map (fun g0 =>
    let g1 := rotationStage m g0
    let g2 := jitterStage m g1
    driftStage m g2)

/-- number_of_atoms (Model.py 368). -/
def nAtoms (m : ImageModel) : ℕ := m.atom_numbers.length

/-- create_parameters (Model.py 437-442), amplitude row: A = Z ** power. -/
def paramA (m : ImageModel) (k : ℕ) : ℝ := m.atom_numbers.getD k 0 ^ m.power

/-- create_parameters, X-center row: the atom's x position. -/
def paramXc (m : ImageModel) (k : ℕ) : ℝ := (m.atom_positions.getD k (0, 0)).1

/-- create_parameters, Y-center row: the atom's y position. -/
def paramYc (m : ImageModel) (k : ℕ) : ℝ := (m.atom_positions.getD k (0, 0)).2

/-- create_parameters, sigma row: np.ones(N) * sigma, the global width
replicated per atom. -/
def paramSigma (m : ImageModel) (_k : ℕ) : ℝ := 1 * m.sigma

/-- generate (Model.py 456-461): start from a zero image and accumulate one
Gaussian2D term per atom over the stored probe grid g. -/
def generate (m : ImageModel) (g : Grid) (i j : ℕ) : ℝ :=
  (List.range (nAtoms m)).foldl
    (fun img k => img + Gaussian2D (g.X i j) (g.Y i j) (paramA m k) (paramXc m k)
      (paramYc m k) (paramSigma m k)) 0

/-- generate_cupy_ram (Model.py 463-466): broadcast all atoms at once and
reduce along the trailing atom axis. -/
def generate_cupy_ram (m : ImageModel) (g : Grid) (i j : ℕ) : ℝ :=
  ∑ k in Finset.range (nAtoms m),
    Gaussian2D (g.X i j) (g.Y i j) (paramA m k) (paramXc m k) (paramYc m k) (paramSigma m k)

/-- numpy linspace(lo, hi, n, endpoint=False), entry k: lo + k*(hi-lo)/n. -/
def np_linspace (lo hi : ℝ) (n : ℕ) (k : ℕ) : ℝ := lo + k * ((hi - lo) / n)

/-- Drift angle of the series (Model.py 66-69): the caller's angle when
given, otherwise one uniform draw rand scaled to [0, 2*pi), made once for
the whole series. -/
def seriesDriftAngle (drift_angle : Option ℝ) (rand : ℝ) : ℝ :=
  match drift_angle with
  | some a => a
  | none => rand * (2 * Real.pi)

/-- Arguments of get_rotation_series (Model.py 30-91), with the ambient
randomness injected: rand is the single uniform draw for the drift angle,
rhs/rvs are the jitter streams handed to the k-th ImageModel. -/
structure SeriesArgs where
  atoms : Atoms
  vacuum : ℝ
  pixel_size : ℝ
  nImages : ℕ
  minScanAngle : ℝ
  maxScanAngle : ℝ
  drift_speed : ℝ
  drift_angle : Option ℝ
  jitter_strength : ℝ
  rand : ℝ
  rhs : ℕ → ℕ → ℝ
  rvs : ℕ → ℕ → ℝ

/-- The k-th ImageModel built by get_rotation_series (Model.py 76-84):
scan_rotation from the linspace of angles, one shared drift vector
(cos t, sin t) from the series drift angle, centre_drift=True, fast=False,
every other parameter at the ImageModel default. -/
def seriesModel (s : SeriesArgs) (k : ℕ) : ImageModel :=
  { atom_positions := s.atoms.positions
    atom_numbers := s.atoms.numbers
    scan_rotation := np_linspace s.minScanAngle s.maxScanAngle s.nImages k
    drift_speed := s.drift_speed
    drift_vector := (Real.cos (seriesDriftAngle s.drift_angle s.rand),
                     Real.sin (seriesDriftAngle s.drift_angle s.rand))
    pixel_size := s.pixel_size
    jitter_strength := JStrength.scalar s.jitter_strength
    centre_drift := true
    margin := s.vacuum
    rh := s.rhs k
    rv := s.rvs k }

/-- Per-image trimmed shape of the series (Model.py 85-87): each generated
image has the shape of its probe grid; side = min of the two axes and the
image is cropped to (side, side). -/
def seriesTrimmedDims (s : SeriesArgs) : Except NpError (List (ℕ × ℕ)) :=
  (List.range s.nImages).mapM (fun k =>
    (create_probe_positions (seriesModel s k)).map
      (fun g => (min g.ny g.nx, min g.ny g.nx)))

/-- numpy stack (Model.py 88): succeeds only when all member shapes agree,
yielding the batched shape (count, d1, d2). -/
def stackShape (dims : List (ℕ × ℕ)) : Except NpError (ℕ × ℕ × ℕ) :=
  match dims with
  | [] => Except.error NpError.emptyStack
  | d :: ds =>
    if ds.all (fun e => e = d) then Except.ok ((d :: ds).length, d.1, d.2)
    else Except.error NpError.shapeMismatch

/-- Shape of the stacked output of get_rotation_series. -/
def seriesStackShape (s : SeriesArgs) : Except NpError (ℕ × ℕ × ℕ) :=
  (seriesTrimmedDims s).bind stackShape

/-- A concrete ImageModel state with one atom at the origin and zero vacuum
margin: the atom bounding box has zero extent. -/
def degenerateModel : ImageModel :=
  { atom_positions := [(0, 0)]
    atom_numbers := [1]
    pixel_size := 1
    margin := 0 }

/-- A concrete ImageModel state with zero atoms. -/
def emptyModel : ImageModel :=
  { atom_positions := []
    atom_numbers := [] }

/-- A concrete ImageModel with nonzero line jitter and a 90-degree scan
rotation over a 2x2 grid: atoms at (0,0) and (1,1), zero vacuum margin,
unit pixel size; the first scanline draws u=0 (displacement -1), every
later scanline draws u=1/2 (displacement 0). -/
def orderTestModel : ImageModel :=
  { atom_positions := [(0, 0), (1, 1)]
    atom_numbers := [1, 1]
    scan_rotation := 90
    pixel_size := 1
    jitter_strength := JStrength.scalar 1
    margin := 0
    rh := fun i => if i = 0 then 0 else 1 / 2 }

/-- The recentred-drift property claimed for the builder: the drift step
with centring subtracts, per axis, half of the code's offset (whichever of
the drift extremes has the larger magnitude) uniformly from every probe
position, and afterwards the maximum and minimum of the applied
displacement sum to zero on each axis. -/
def centreDriftInvariant (m : ImageModel) (g : Grid) : Prop :=
  (∀ i j : ℕ,
      (driftStage m g).X i j = g.X i j +
        (add_drift g.ny g.nx m.drift_vector m.drift_speed).1 i j -
        driftOffset g.ny g.nx (add_drift g.ny g.nx m.drift_vector m.drift_speed).1 / 2 ∧
      (driftStage m g).Y i j = g.Y i j +
        (add_drift g.ny g.nx m.drift_vector m.drift_speed).2 i j -
        driftOffset g.ny g.nx (add_drift g.ny g.nx m.drift_vector m.drift_speed).2 / 2) ∧
  |driftOffset g.ny g.nx (add_drift g.ny g.nx m.drift_vector m.drift_speed).1| =
    max |fieldMax g.ny g.nx (add_drift g.ny g.nx m.drift_vector m.drift_speed).1|
      |fieldMin g.ny g.nx (add_drift g.ny g.nx m.drift_vector m.drift_speed).1| ∧
  |driftOffset g.ny g.nx (add_drift g.ny g.nx m.drift_vector m.drift_speed).2| =
    max |fieldMax g.ny g.nx (add_drift g.ny g.nx m.drift_vector m.drift_speed).2|
      |fieldMin g.ny g.nx (add_drift g.ny g.nx m.drift_vector m.drift_speed).2| ∧
  fieldMax g.ny g.nx (fun i j => (driftStage m g).X i j - g.X i j) +
    fieldMin g.ny g.nx (fun i j => (driftStage m g).X i j - g.X i j) = 0 ∧
  fieldMax g.ny g.nx (fun i j => (driftStage m g).Y i j - g.Y i j) +
    fieldMin g.ny g.nx (fun i j => (driftStage m g).Y i j - g.Y i j) = 0

/-- A concrete 2x2 probe grid used to instantiate the drift invariant. -/
def witnessGrid : Grid :=
  { ny := 2
    nx := 2
    X := fun _i j => (j : ℝ)
    Y := fun i _j => (i : ℝ) }

/-- A concrete ImageModel with nonzero drift and centring enabled. -/
def witnessDriftModel : ImageModel :=
  { atom_positions := [(0, 0)]
    atom_numbers := [1]
    drift_speed := 1
    drift_vector := (1, 0)
    centre_drift := true }

/-- Concrete arguments for the rotation-series driver: one atom, default
spacing, four images over the full circle, no explicit drift angle. -/
def witnessSeriesArgs : SeriesArgs :=
  { atoms := { positions := [(0, 0)], numbers := [1] }
    vacuum := 5
    pixel_size := 1
    nImages := 4
    minScanAngle := 0
    maxScanAngle := 360
    drift_speed := 5
    drift_angle := none
    jitter_strength := 0
    rand := 0
    rhs := fun _ _ => 0
    rvs := fun _ _ => 0 }

/-- Folding additive accumulation from c equals c plus the mapped sum. -/
lemma foldl_add_map (f : ℕ → ℝ) : ∀ (l : List ℕ) (c : ℝ),
    l.foldl (fun a k => a + f k) c = c + (l.map f).sum
  | [], c => by simp
  | k :: ks, c => by
    rw [List.foldl_cons, foldl_add_map f ks (c + f k), List.map_cons, List.sum_cons]
    ring

/-- The mapped sum over List.range agrees with the Finset.range sum. -/
lemma range_map_sum (f : ℕ → ℝ) (n : ℕ) :
    ((List.range n).map f).sum = ∑ k in Finset.range n, f k := by
  induction n with
  | zero => simp
  | succ n ih => rw [List.range_succ, List.map_append, List.sum_append,
      Finset.sum_range_succ, ih]; simp

/-- C1: at every pixel of the stored probe grid, generate() returns the sum
over all atoms of A_k * exp(-((x-xc_k)^2 + (y-yc_k)^2) / (2*sigma_k^2))
with A_k = Z_k^power and sigma_k the global sigma replicated per atom. -/
theorem C1_generate_gaussian_sum (m : ImageModel) (g : Grid) (i j : ℕ) :
    generate m g i j =
      ∑ k in Finset.range (nAtoms m),
        (m.atom_numbers.getD k 0 ^ m.power) *
          Real.exp (-((g.X i j - (m.atom_positions.getD k (0, 0)).1) ^ 2 +
              (g.Y i j - (m.atom_positions.getD k (0, 0)).2) ^ 2) / (2 * m.sigma ^ 2)) := by
  unfold generate
  rw [foldl_add_map, zero_add, range_map_sum]
  refine Finset.sum_congr rfl (fun k _ => ?_)
  unfold Gaussian2D paramA paramXc paramYc paramSigma
  rw [one_mul]

/-- C2: the accumulate-per-atom strategy generate() and the broadcast
strategy generate_cupy_ram() agree exactly on every pixel for the same
stored grid and parameters, hence within 1e-6 relative tolerance. -/
theorem C2_generate_strategies_agree (m : ImageModel) (g : Grid) (i j : ℕ) :
    generate m g i j = generate_cupy_ram m g i j ∧
      |generate m g i j - generate_cupy_ram m g i j| ≤ 1e-6 * |generate_cupy_ram m g i j| := by
  have h : generate m g i j = generate_cupy_ram m g i j := by
    unfold generate generate_cupy_ram
    rw [foldl_add_map, zero_add, range_map_sum]
  refine ⟨h, ?_⟩
  rw [h, sub_self, abs_zero]
  positivity

/-- C4: the drift field at channel c and pixel (i, j), whose flattened
row-major index is i*nx + j, is (s / (ny*nx)) * (-v_c) * (i*nx + j); at
speed 0 the field vanishes, and the field is linear in the speed. -/
theorem C4_add_drift_formula (ny nx : ℕ) (v : ℝ × ℝ) (s : ℝ) :
    (∀ i j : ℕ,
        (add_drift ny nx v s).1 i j =
          s / ((ny * nx : ℕ) : ℝ) * (-v.1) * ((i * nx + j : ℕ) : ℝ) ∧
        (add_drift ny nx v s).2 i j =
          s / ((ny * nx : ℕ) : ℝ) * (-v.2) * ((i * nx + j : ℕ) : ℝ)) ∧
    (∀ i j : ℕ, (add_drift ny nx v 0).1 i j = 0 ∧ (add_drift ny nx v 0).2 i j = 0) ∧
    (∀ t : ℝ, ∀ i j : ℕ,
        (add_drift ny nx v (t * s)).1 i j = t * (add_drift ny nx v s).1 i j ∧
        (add_drift ny nx v (t * s)).2 i j = t * (add_drift ny nx v s).2 i j) := by
  refine ⟨fun i j => ⟨rfl, rfl⟩, fun i j => ?_, fun t i j => ?_⟩
  · unfold add_drift
    constructor <;> simp
  · unfold add_drift
    constructor <;> ring

/-- C5: line jitter is constant along each scanline (independent of the
in-line pixel index), the horizontal flag writes exactly the X channel
with strength_x * (2*u_i - 1) from the per-line draw u_i and the vertical
flag exactly the Y channel, a scalar strength behaves as the pair (s, s),
a draw in [0,1) with positive strength lands in [-strength, strength),
and strength 0 gives the all-zero field. -/
theorem C5_add_line_jitter_shape (ny nx : ℕ) (horizontal vertical : Bool) (rh rv : ℕ → ℝ) :
    (∀ (st : JStrength) (i j j2 : ℕ),
        (add_line_jitter ny nx st horizontal vertical rh rv).1 i j =
          (add_line_jitter ny nx st horizontal vertical rh rv).1 i j2 ∧
        (add_line_jitter ny nx st horizontal vertical rh rv).2 i j =
          (add_line_jitter ny nx st horizontal vertical rh rv).2 i j2) ∧
    (∀ (st : JStrength) (i j : ℕ),
        (horizontal = true →
          (add_line_jitter ny nx st horizontal vertical rh rv).1 i j =
            st.sx * (2 * rh i - 1)) ∧
        (horizontal = false →
          (add_line_jitter ny nx st horizontal vertical rh rv).1 i j = 0) ∧
        (vertical = true →
          (add_line_jitter ny nx st horizontal vertical rh rv).2 i j =
            st.sy * (2 * rv i - 1)) ∧
        (vertical = false →
          (add_line_jitter ny nx st horizontal vertical rh rv).2 i j = 0)) ∧
    (∀ s : ℝ, add_line_jitter ny nx (JStrength.scalar s) horizontal vertical rh rv =
        add_line_jitter ny nx (JStrength.pair s s) horizontal vertical rh rv) ∧
    (∀ (st : JStrength) (i j : ℕ), horizontal = true →
        0 ≤ rh i → rh i < 1 → 0 < st.sx →
        -st.sx ≤ (add_line_jitter ny nx st horizontal vertical rh rv).1 i j ∧
          (add_line_jitter ny nx st horizontal vertical rh rv).1 i j < st.sx) ∧
    (∀ i j : ℕ,
        (add_line_jitter ny nx (JStrength.scalar 0) horizontal vertical rh rv).1 i j = 0 ∧
        (add_line_jitter ny nx (JStrength.scalar 0) horizontal vertical rh rv).2 i j = 0) := by
  refine ⟨fun st i j j2 => ⟨rfl, rfl⟩, fun st i j => ?_, fun s => rfl, fun st i j hh h0 h1 hs => ?_,
    fun i j => ?_⟩
  · refine ⟨fun hh => by simp [add_line_jitter, hh], fun hh => by simp [add_line_jitter, hh],
      fun hv => by simp [add_line_jitter, hv], fun hv => by simp [add_line_jitter, hv]⟩
  · subst hh
    unfold add_line_jitter
    simp only [if_true]
    constructor <;> nlinarith
  · unfold add_line_jitter
    constructor <;> cases horizontal <;> cases vertical <;> simp [JStrength.sx, JStrength.sy]

/-- C10: Gaussian2D divides by 2*sigma^2 with no guard; under the
precondition sigma ≠ 0 the divisor is nonzero and the evaluation is total,
given by the closed formula. -/
theorem C10_gaussian_sigma_precondition (sigma : ℝ) (hs : sigma ≠ 0) :
    2 * sigma ^ 2 ≠ 0 ∧
      ∀ x y A xc yc : ℝ,
        Gaussian2D x y A xc yc sigma =
          A * Real.exp (-((x - xc) ^ 2 + (y - yc) ^ 2) / (2 * sigma ^ 2)) :=
  ⟨mul_ne_zero two_ne_zero (pow_ne_zero 2 hs), fun _ _ _ _ _ => rfl⟩

/-- Witness for C10 at the concrete width sigma = 1. -/
theorem C10_gaussian_sigma_precondition_witness :
    2 * (1 : ℝ) ^ 2 ≠ 0 ∧
      ∀ x y A xc yc : ℝ,
        Gaussian2D x y A xc yc 1 =
          A * Real.exp (-((x - xc) ^ 2 + (y - yc) ^ 2) / (2 * 1 ^ 2)) :=
  C10_gaussian_sigma_precondition 1 (by norm_num)

/-- Witness for C5 at concrete shape, strengths and draws. -/
theorem C5_add_line_jitter_shape_witness :
    (add_line_jitter 2 3 (JStrength.scalar 1) true true (fun _ => 1 / 4) (fun _ => 3 / 4)).1 0 0 =
      (add_line_jitter 2 3 (JStrength.scalar 1) true true (fun _ => 1 / 4) (fun _ => 3 / 4)).1 0 2 ∧
    -(1 : ℝ) ≤
      (add_line_jitter 2 3 (JStrength.scalar 1) true true (fun _ => 1 / 4) (fun _ => 3 / 4)).1 0 0 ∧
    (add_line_jitter 2 3 (JStrength.scalar 1) true true (fun _ => 1 / 4) (fun _ => 3 / 4)).1 0 0 <
      1 ∧
    (add_line_jitter 2 3 (JStrength.scalar 0) true true (fun _ => 1 / 4) (fun _ => 3 / 4)).1 0 0 =
      0 := by
  obtain ⟨h1, h2, h3, h4, h5⟩ :=
    C5_add_line_jitter_shape 2 3 true true (fun _ => 1 / 4) (fun _ => 3 / 4)
  have hr := h4 (JStrength.scalar 1) 0 0 rfl (by norm_num) (by norm_num)
    (by norm_num [JStrength.sx])
  exact ⟨(h1 (JStrength.scalar 1) 0 0 2).1, hr.1, hr.2, (h5 0 0).1⟩

/-- Compute arangeLen from the two defining inequalities of the ceiling. -/
lemma arangeLen_eq (start stop step : ℝ) (n : ℕ) (h1 : (n : ℝ) - 1 < (stop - start) / step)
    (h2 : (stop - start) / step ≤ (n : ℝ)) : arangeLen start stop step = n := by
  unfold arangeLen
  have hc : ⌈(stop - start) / step⌉ = (n : ℤ) := by
    rw [Int.ceil_eq_iff]
    constructor
    · push_cast
      exact h1
    · push_cast
      exact h2
  rw [hc]
  exact Int.toNat_natCast n

/-- baseGrid on a model whose positions are the nonempty list p :: ps. -/
lemma baseGrid_cons (m : ImageModel) (p : ℝ × ℝ) (ps : List (ℝ × ℝ))
    (h : m.atom_positions = p :: ps) :
    baseGrid m = Except.ok
      { ny := gridNY m p ps
        nx := gridNX m p ps
        X := fun _i j => arangeVal (gridXlow m p ps) m.pixel_size j
        Y := fun i _j => arangeVal (gridYlow m p ps) m.pixel_size i } := by
  unfold baseGrid
  rw [h]

/-- The jitter step is the identity when the strength argument is falsy. -/
lemma jitterStage_skip (m : ImageModel) (g : Grid) (h : m.jitter_strength.truthy = false) :
    jitterStage m g = g := by
  unfold jitterStage
  rw [h]
  rfl

/-- The jitter step adds the line-jitter field when the strength is truthy. -/
lemma jitterStage_apply (m : ImageModel) (g : Grid) (h : m.jitter_strength.truthy = true) :
    jitterStage m g =
      { g with
        X := fun i j => g.X i j + (add_line_jitter g.ny g.nx m.jitter_strength
          m.jitter_horizontal m.jitter_vertical m.rh m.rv).1 i j
        Y := fun i j => g.Y i j + (add_line_jitter g.ny g.nx m.jitter_strength
          m.jitter_horizontal m.jitter_vertical m.rh m.rv).2 i j } := by
  unfold jitterStage
  rw [h]
  rfl

/-- The rotation step is the identity at zero scan rotation. -/
lemma rotationStage_skip (m : ImageModel) (g : Grid) (h : m.scan_rotation = 0) :
    rotationStage m g = g := by
  unfold rotationStage
  rw [if_pos h]

/-- The rotation step rotates about the per-channel mean of its input grid
when scan_rotation is nonzero. -/
lemma rotationStage_apply (m : ImageModel) (g : Grid) (h : m.scan_rotation ≠ 0) :
    rotationStage m g =
      { g with
        X := fun i j => (rotation_matrix m.scan_rotation false).a * (g.X i j - gridMeanX g) +
          (rotation_matrix m.scan_rotation false).b * (g.Y i j - gridMeanY g) + gridMeanX g
        Y := fun i j => (rotation_matrix m.scan_rotation false).c * (g.X i j - gridMeanX g) +
          (rotation_matrix m.scan_rotation false).d * (g.Y i j - gridMeanY g) + gridMeanY g } := by
  unfold rotationStage
  rw [if_neg h]

/-- The drift step is the identity at zero drift speed. -/
lemma driftStage_skip (m : ImageModel) (g : Grid) (h : m.drift_speed = 0) :
    driftStage m g = g := by
  unfold driftStage
  rw [if_pos h]

/-- The drift step with recentring adds the drift field and subtracts half
of the per-axis offset everywhere. -/
lemma driftStage_apply_centre (m : ImageModel) (g : Grid) (h : m.drift_speed ≠ 0)
    (hc : m.centre_drift = true) :
    driftStage m g =
      { g with
        X := fun i j => g.X i j +
          (add_drift g.ny g.nx m.drift_vector m.drift_speed).1 i j -
          driftOffset g.ny g.nx (add_drift g.ny g.nx m.drift_vector m.drift_speed).1 / 2
        Y := fun i j => g.Y i j +
          (add_drift g.ny g.nx m.drift_vector m.drift_speed).2 i j -
          driftOffset g.ny g.nx (add_drift g.ny g.nx m.drift_vector m.drift_speed).2 / 2 } := by
  unfold driftStage
  rw [if_neg h, hc]
  rfl

/-- deg2rad of 90 degrees is pi/2. -/
lemma deg2rad_90 : deg2rad 90 = Real.pi / 2 := by
  unfold deg2rad
  ring

/-- Entries of the 90-degree rotation matrix. -/
lemma rotation_matrix_90 :
    rotation_matrix 90 false = { a := 0, b := -1, c := 1, d := 0 } := by
  simp [rotation_matrix, deg2rad_90, Real.cos_pi_div_two, Real.sin_pi_div_two]

/-- Scalar evaluation of the two artifact orders on the order-test model:
the source order (jitter before rotation) gives X(0,0) = 1/2, while
rotating before jittering gives X(0,0) = 0. -/
lemma orderTestModel_eval :
    (create_probe_positions orderTestModel).map (fun g => g.X 0 0) = Except.ok (1 / 2) ∧
    (probe_positions_rotation_first orderTestModel).map (fun g => g.X 0 0) = Except.ok 0 := by
  have hb := baseGrid_cons orderTestModel (0, 0) [(1, 1)] rfl
  have hxlow : gridXlow orderTestModel (0, 0) [(1, 1)] = 0 := by
    norm_num [gridXlow, bboxXlow, orderTestModel, listMin, List.foldl, min_def]
  have hylow : gridYlow orderTestModel (0, 0) [(1, 1)] = 0 := by
    norm_num [gridYlow, bboxYlow, orderTestModel, listMin, List.foldl, min_def]
  have hnx : gridNX orderTestModel (0, 0) [(1, 1)] = 2 := by
    apply arangeLen_eq <;>
      norm_num [gridXlow, gridXhigh, bboxXlow, bboxXhigh, bboxScale, orderTestModel,
        listMin, listMax, List.foldl, min_def, max_def]
  have hny : gridNY orderTestModel (0, 0) [(1, 1)] = 2 := by
    apply arangeLen_eq <;>
      norm_num [gridYlow, gridYhigh, bboxXlow, bboxXhigh, bboxYlow, bboxYhigh, bboxScale,
        orderTestModel, listMin, listMax, List.foldl, min_def, max_def]
  have htruthy : (orderTestModel.jitter_strength).truthy = true := by
    norm_num [orderTestModel, JStrength.truthy]
  have hrot90 : orderTestModel.scan_rotation ≠ 0 := by
    norm_num [orderTestModel]
  have hdr : orderTestModel.drift_speed = 0 := rfl
  constructor
  · unfold create_probe_positions
    rw [hb]
    simp only [hnx, hny, hxlow, hylow, Except.map]
    rw [jitterStage_apply _ _ htruthy]
    rw [rotationStage_apply _ _ hrot90]
    rw [driftStage_skip _ _ hdr]
    simp only [Except.ok.injEq]
    simp [gridMeanX, gridMeanY, add_line_jitter, arangeVal, rotation_matrix_90,
      orderTestModel, JStrength.sx, JStrength.sy, Finset.sum_range_succ, Finset.sum_range_zero]
    norm_num
  · unfold probe_positions_rotation_first
    rw [hb]
    simp only [hnx, hny, hxlow, hylow, Except.map]
    rw [rotationStage_apply _ _ hrot90]
    rw [jitterStage_apply _ _ htruthy]
    rw [driftStage_skip _ _ hdr]
    simp only [Except.ok.injEq]
    simp [gridMeanX, gridMeanY, add_line_jitter, arangeVal, rotation_matrix_90,
      orderTestModel, JStrength.sx, JStrength.sy, Finset.sum_range_succ, Finset.sum_range_zero]
    norm_num

/-- C3 counterexample: on the order-test model (nonzero jitter, 90-degree
scan rotation) the grid built in the source order differs at pixel (0,0)
from the grid in which the jitter is added, unrotated, to the rotated
base grid: the rotation is applied to the jittered grid, so the jitter
displacements are themselves rotated, contrary to the claim. -/
theorem C3_jitter_unrotated_counterexample :
    (create_probe_positions orderTestModel).map (fun g => g.X 0 0) = Except.ok (1 / 2) ∧
    (probe_positions_rotation_first orderTestModel).map (fun g => g.X 0 0) = Except.ok 0 ∧
    (1 / 2 : ℝ) ≠ 0 :=
  ⟨orderTestModel_eval.1, orderTestModel_eval.2, by norm_num⟩

/-- C3 amended: the builder composes artifacts in the fixed order jitter,
then rotation (applied about the per-channel mean of the jittered grid,
so the per-scanline jitter deviations are rotated along with the grid),
then drift, then optional recentring; and for the concrete model with
nonzero jitter strength and nonzero scan rotation, applying rotation
before jitter produces a different grid than the fixed order. -/
theorem C3_artifact_order :
    (∀ m : ImageModel, create_probe_positions m =
        (baseGrid m).map (fun g => driftStage m (rotationStage m (jitterStage m g)))) ∧
    (create_probe_positions orderTestModel).map (fun g => g.X 0 0) ≠
      (probe_positions_rotation_first orderTestModel).map (fun g => g.X 0 0) := by
  refine ⟨fun _ => rfl, ?_⟩
  rw [orderTestModel_eval.1, orderTestModel_eval.2]
  simp only [ne_eq, Except.ok.injEq]
  norm_num

/-- C9 (code bug): supplying nothing raises the intended AttributeError,
but atoms=None with a nonempty explicit positions array and matching
numbers does not succeed either: the guard `if not positions:` evaluates
the python truthiness of a multi-element numpy array, which raises a
ValueError, contradicting the class's own documented list-input mode. -/
theorem C9_positions_input_raises :
    imageModelInit none (some [((0 : ℝ), (0 : ℝ)), (1, 1)]) (some [1, 2]) =
      Except.error InitError.valueErrorAmbiguousTruth ∧
    imageModelInit none none none = Except.error InitError.attributeError :=
  ⟨rfl, rfl⟩

/-- Evaluation of the zero-extent-bounding-box construction: it succeeds
and returns an empty 0 x 0 probe grid. -/
lemma degenerateModel_grid :
    ∃ g : Grid, create_probe_positions degenerateModel = Except.ok g ∧ g.ny = 0 ∧ g.nx = 0 := by
  have hb := baseGrid_cons degenerateModel (0, 0) [] rfl
  have hnx : gridNX degenerateModel (0, 0) [] = 0 := by
    apply arangeLen_eq
    · norm_num [gridXlow, gridXhigh, bboxXlow, bboxXhigh, bboxScale, degenerateModel,
        listMin, listMax]
    · norm_num [gridXlow, gridXhigh, bboxXlow, bboxXhigh, bboxScale, degenerateModel,
        listMin, listMax]
  have hny : gridNY degenerateModel (0, 0) [] = 0 := by
    apply arangeLen_eq
    · norm_num [gridYlow, gridYhigh, gridXlow, gridXhigh, bboxXlow, bboxXhigh, bboxYlow,
        bboxYhigh, bboxScale, degenerateModel, listMin, listMax]
    · norm_num [gridYlow, gridYhigh, gridXlow, gridXhigh, bboxXlow, bboxXhigh, bboxYlow,
        bboxYhigh, bboxScale, degenerateModel, listMin, listMax]
  unfold create_probe_positions
  rw [hb]
  have hj : (degenerateModel.jitter_strength).truthy = false := by
    simp [degenerateModel, JStrength.truthy]
  have hrot : degenerateModel.scan_rotation = 0 := rfl
  have hdr : degenerateModel.drift_speed = 0 := rfl
  refine ⟨{ ny := gridNY degenerateModel (0, 0) []
            nx := gridNX degenerateModel (0, 0) []
            X := fun _i j => arangeVal (gridXlow degenerateModel (0, 0) [])
              degenerateModel.pixel_size j
            Y := fun i _j => arangeVal (gridYlow degenerateModel (0, 0) [])
              degenerateModel.pixel_size i },
    ?_, hny, hnx⟩
  simp only [Except.map, jitterStage_skip _ _ hj, rotationStage_skip _ _ hrot,
    driftStage_skip _ _ hdr]

/-- C8 counterexample: constructing over a zero-extent bounding box (one
atom, zero margin) does not fail at all, let alone with an InvalidGeometry
error; it silently produces an empty 0 x 0 probe grid. -/
theorem C8_degenerate_grid_counterexample :
    (create_probe_positions degenerateModel).map (fun g => (g.ny, g.nx)) =
      Except.ok ((0 : ℕ), (0 : ℕ)) := by
  obtain ⟨g, hg, h1, h2⟩ := degenerateModel_grid
  rw [hg]
  simp only [Except.map, h1, h2]

/-- C8 amended: degenerate constructions do not raise a dedicated
InvalidGeometry error.  Zero atoms fails fast but with generic errors (an
empty atoms object is falsy and falls through to the AttributeError
guard; a zero-atom grid build fails in the numpy zero-size reduction),
while a zero-extent bounding box with zero vacuum margin does not fail at
all and silently yields an empty probe grid. -/
theorem C8_degenerate_geometry_behaviour :
    imageModelInit (some { positions := [], numbers := [] }) none none =
      Except.error InitError.attributeError ∧
    create_probe_positions emptyModel = Except.error NpError.zeroSizeReduction ∧
    ∃ g : Grid, create_probe_positions degenerateModel = Except.ok g ∧ g.ny = 0 ∧ g.nx = 0 :=
  ⟨rfl, rfl, degenerateModel_grid⟩

/-- Membership in the pixel index set. -/
lemma mem_pixelSet {ny nx : ℕ} {p : ℕ × ℕ} :
    p ∈ pixelSet ny nx ↔ p.1 < ny ∧ p.2 < nx := by
  simp [pixelSet, Finset.mem_product]

/-- The pixel set of a grid with nonzero dimensions is nonempty. -/
lemma pixelSet_nonempty {ny nx : ℕ} (hy : ny ≠ 0) (hx : nx ≠ 0) :
    (pixelSet ny nx).Nonempty :=
  ⟨(0, 0), mem_pixelSet.2 ⟨Nat.pos_of_ne_zero hy, Nat.pos_of_ne_zero hx⟩⟩

/-- Flattened-index bound over a (ny, nx) grid. -/
lemma flat_index_le {ny nx i j : ℕ} (hi : i < ny) (hj : j < nx) :
    i * nx + j ≤ ny * nx - 1 := by
  have h1 : i * nx + j < ny * nx := by
    calc i * nx + j < i * nx + nx := by omega
    _ = (i + 1) * nx := by ring
    _ ≤ ny * nx := Nat.mul_le_mul hi (le_refl nx)
  omega

/-- The last pixel attains the flattened index ny*nx - 1. -/
lemma flat_index_last {ny nx : ℕ} (hy : ny ≠ 0) (hx : nx ≠ 0) :
    (ny - 1) * nx + (nx - 1) = ny * nx - 1 := by
  have h : (ny - 1) * nx = ny * nx - nx := by
    rw [Nat.sub_mul, one_mul]
  have h2 : nx ≤ ny * nx := Nat.le_mul_of_pos_left nx (Nat.pos_of_ne_zero hy)
  have h3 : 1 ≤ nx := Nat.pos_of_ne_zero hx
  omega

/-- The grid maximum of an affine function of the flattened pixel index. -/
lemma fieldMax_affine {ny nx : ℕ} (hy : ny ≠ 0) (hx : nx ≠ 0) (a c : ℝ) :
    fieldMax ny nx (fun i j => a * ((i * nx + j : ℕ) : ℝ) + c) =
      max (a * ((ny * nx - 1 : ℕ) : ℝ)) 0 + c := by
  unfold fieldMax
  rw [dif_pos (pixelSet_nonempty hy hx)]
  apply le_antisymm
  · apply Finset.sup'_le
    intro p hp
    obtain ⟨h1, h2⟩ := mem_pixelSet.1 hp
    have hk : ((p.1 * nx + p.2 : ℕ) : ℝ) ≤ ((ny * nx - 1 : ℕ) : ℝ) :=
      Nat.cast_le.2 (flat_index_le h1 h2)
    show a * ((p.1 * nx + p.2 : ℕ) : ℝ) + c ≤ max (a * ((ny * nx - 1 : ℕ) : ℝ)) 0 + c
    rcases le_or_lt 0 a with ha | ha
    · have hm := mul_le_mul_of_nonneg_left hk ha
      have hle := le_max_left (a * ((ny * nx - 1 : ℕ) : ℝ)) (0 : ℝ)
      linarith
    · have hnn : (0 : ℝ) ≤ ((p.1 * nx + p.2 : ℕ) : ℝ) := Nat.cast_nonneg _
      have hm : a * ((p.1 * nx + p.2 : ℕ) : ℝ) ≤ 0 :=
        mul_nonpos_of_nonpos_of_nonneg ha.le hnn
      have hle := le_max_right (a * ((ny * nx - 1 : ℕ) : ℝ)) (0 : ℝ)
      linarith
  · rcases le_or_lt 0 a with ha | ha
    · have hmem : ((ny - 1, nx - 1) : ℕ × ℕ) ∈ pixelSet ny nx :=
        mem_pixelSet.2 ⟨by omega, by omega⟩
      have hval := Finset.le_sup'
        (fun p : ℕ × ℕ => a * ((p.1 * nx + p.2 : ℕ) : ℝ) + c) hmem
      simp only at hval
      rw [flat_index_last hy hx] at hval
      rw [max_eq_left (mul_nonneg ha (Nat.cast_nonneg _))]
      exact hval
    · have hmem : ((0, 0) : ℕ × ℕ) ∈ pixelSet ny nx :=
        mem_pixelSet.2 ⟨Nat.pos_of_ne_zero hy, Nat.pos_of_ne_zero hx⟩
      have hval := Finset.le_sup'
        (fun p : ℕ × ℕ => a * ((p.1 * nx + p.2 : ℕ) : ℝ) + c) hmem
      rw [max_eq_right (mul_nonpos_of_nonpos_of_nonneg ha.le (Nat.cast_nonneg _))]
      simpa using hval

/-- The grid minimum of an affine function of the flattened pixel index. -/
lemma fieldMin_affine {ny nx : ℕ} (hy : ny ≠ 0) (hx : nx ≠ 0) (a c : ℝ) :
    fieldMin ny nx (fun i j => a * ((i * nx + j : ℕ) : ℝ) + c) =
      min (a * ((ny * nx - 1 : ℕ) : ℝ)) 0 + c := by
  unfold fieldMin
  rw [dif_pos (pixelSet_nonempty hy hx)]
  apply le_antisymm
  · rcases le_or_lt 0 a with ha | ha
    · have hmem : ((0, 0) : ℕ × ℕ) ∈ pixelSet ny nx :=
        mem_pixelSet.2 ⟨Nat.pos_of_ne_zero hy, Nat.pos_of_ne_zero hx⟩
      have hval := Finset.inf'_le
        (fun p : ℕ × ℕ => a * ((p.1 * nx + p.2 : ℕ) : ℝ) + c) hmem
      rw [min_eq_right (mul_nonneg ha (Nat.cast_nonneg _))]
      simpa using hval
    · have hmem : ((ny - 1, nx - 1) : ℕ × ℕ) ∈ pixelSet ny nx :=
        mem_pixelSet.2 ⟨by omega, by omega⟩
      have hval := Finset.inf'_le
        (fun p : ℕ × ℕ => a * ((p.1 * nx + p.2 : ℕ) : ℝ) + c) hmem
      simp only at hval
      rw [flat_index_last hy hx] at hval
      rw [min_eq_left (mul_nonpos_of_nonpos_of_nonneg ha.le (Nat.cast_nonneg _))]
      exact hval
  · apply Finset.le_inf'
    intro p hp
    obtain ⟨h1, h2⟩ := mem_pixelSet.1 hp
    have hk : ((p.1 * nx + p.2 : ℕ) : ℝ) ≤ ((ny * nx - 1 : ℕ) : ℝ) :=
      Nat.cast_le.2 (flat_index_le h1 h2)
    show min (a * ((ny * nx - 1 : ℕ) : ℝ)) 0 + c ≤ a * ((p.1 * nx + p.2 : ℕ) : ℝ) + c
    rcases le_or_lt 0 a with ha | ha
    · have hm : (0 : ℝ) ≤ a * ((p.1 * nx + p.2 : ℕ) : ℝ) :=
        mul_nonneg ha (Nat.cast_nonneg _)
      have hle := min_le_right (a * ((ny * nx - 1 : ℕ) : ℝ)) (0 : ℝ)
      linarith
    · have hm := mul_le_mul_of_nonpos_left hk ha.le
      have hle := min_le_left (a * ((ny * nx - 1 : ℕ) : ℝ)) (0 : ℝ)
      linarith

/-- Behaviour of the code's recentring offset on one drift channel, an
affine (here linear) function of the flattened index: the offset equals
the extreme drift value, its magnitude is the larger of the two extreme
magnitudes, and after subtracting half of it the extremes sum to zero. -/
lemma drift_channel (ny nx : ℕ) (hy : ny ≠ 0) (hx : nx ≠ 0) (a : ℝ) (f : ℕ → ℕ → ℝ)
    (hf : f = fun i j => a * ((i * nx + j : ℕ) : ℝ)) :
    driftOffset ny nx f = a * ((ny * nx - 1 : ℕ) : ℝ) ∧
    |driftOffset ny nx f| = max |fieldMax ny nx f| |fieldMin ny nx f| ∧
    fieldMax ny nx (fun i j => f i j - driftOffset ny nx f / 2) +
      fieldMin ny nx (fun i j => f i j - driftOffset ny nx f / 2) = 0 := by
  subst hf
  have hfun : (fun i j : ℕ => a * ((i * nx + j : ℕ) : ℝ)) =
      (fun i j : ℕ => a * ((i * nx + j : ℕ) : ℝ) + 0) := by
    funext i j
    ring
  have hmax : fieldMax ny nx (fun i j => a * ((i * nx + j : ℕ) : ℝ)) =
      max (a * ((ny * nx - 1 : ℕ) : ℝ)) 0 := by
    rw [hfun, fieldMax_affine hy hx, add_zero]
  have hmin : fieldMin ny nx (fun i j => a * ((i * nx + j : ℕ) : ℝ)) =
      min (a * ((ny * nx - 1 : ℕ) : ℝ)) 0 := by
    rw [hfun, fieldMin_affine hy hx, add_zero]
  have hoff : driftOffset ny nx (fun i j => a * ((i * nx + j : ℕ) : ℝ)) =
      a * ((ny * nx - 1 : ℕ) : ℝ) := by
    unfold driftOffset
    rw [hmax, hmin]
    rcases le_or_lt (a * ((ny * nx - 1 : ℕ) : ℝ)) 0 with hE | hE
    · have hcond : ¬ (max (a * ((ny * nx - 1 : ℕ) : ℝ)) 0 >
          -min (a * ((ny * nx - 1 : ℕ) : ℝ)) 0) := by
        rw [max_eq_right hE, min_eq_left hE]
        linarith
      rw [if_neg hcond, min_eq_left hE]
    · have hcond : max (a * ((ny * nx - 1 : ℕ) : ℝ)) 0 >
          -min (a * ((ny * nx - 1 : ℕ) : ℝ)) 0 := by
        rw [max_eq_left hE.le, min_eq_right hE.le]
        linarith
      rw [if_pos hcond, max_eq_left hE.le]
  refine ⟨hoff, ?_, ?_⟩
  · rw [hoff, hmax, hmin]
    rcases le_or_lt (a * ((ny * nx - 1 : ℕ) : ℝ)) 0 with hE | hE
    · rw [max_eq_right hE, min_eq_left hE, abs_zero]
      rw [max_eq_right (abs_nonneg _)]
    · rw [max_eq_left hE.le, min_eq_right hE.le, abs_zero]
      rw [max_eq_left (abs_nonneg _)]
  · have hshift : (fun i j : ℕ => a * ((i * nx + j : ℕ) : ℝ) -
        driftOffset ny nx (fun i j => a * ((i * nx + j : ℕ) : ℝ)) / 2) =
        (fun i j : ℕ => a * ((i * nx + j : ℕ) : ℝ) +
          -(a * ((ny * nx - 1 : ℕ) : ℝ) / 2)) := by
      funext i j
      rw [hoff]
      ring
    rw [hshift, fieldMax_affine hy hx, fieldMin_affine hy hx]
    have hmm := max_add_min (a * ((ny * nx - 1 : ℕ) : ℝ)) (0 : ℝ)
    linarith

/-- C7: when centre_drift holds and drift_speed is nonzero, the drift step
subtracts per axis half of whichever drift extreme has the larger
magnitude, uniformly from every probe position, and afterwards the maximum
and minimum of the applied per-axis displacement sum to exactly zero. -/
theorem C7_centre_drift (m : ImageModel) (g : Grid) (hd : m.drift_speed ≠ 0)
    (hc : m.centre_drift = true) (hy : g.ny ≠ 0) (hx : g.nx ≠ 0) :
    centreDriftInvariant m g := by
  have hX : (add_drift g.ny g.nx m.drift_vector m.drift_speed).1 =
      fun i j => (m.drift_speed / ((g.ny * g.nx : ℕ) : ℝ) * -m.drift_vector.1) *
        ((i * g.nx + j : ℕ) : ℝ) := by
    funext i j
    show m.drift_speed / ((g.ny * g.nx : ℕ) : ℝ) * -m.drift_vector.1 *
      ((i * g.nx + j : ℕ) : ℝ) = _
    ring
  have hY : (add_drift g.ny g.nx m.drift_vector m.drift_speed).2 =
      fun i j => (m.drift_speed / ((g.ny * g.nx : ℕ) : ℝ) * -m.drift_vector.2) *
        ((i * g.nx + j : ℕ) : ℝ) := by
    funext i j
    show m.drift_speed / ((g.ny * g.nx : ℕ) : ℝ) * -m.drift_vector.2 *
      ((i * g.nx + j : ℕ) : ℝ) = _
    ring
  obtain ⟨hoX, haX, hsX⟩ := drift_channel g.ny g.nx hy hx _ _ hX
  obtain ⟨hoY, haY, hsY⟩ := drift_channel g.ny g.nx hy hx _ _ hY
  unfold centreDriftInvariant
  rw [driftStage_apply_centre m g hd hc]
  refine ⟨fun i j => ⟨rfl, rfl⟩, haX, haY, ?_, ?_⟩
  · have hfX : (fun i j : ℕ =>
        (g.X i j + (add_drift g.ny g.nx m.drift_vector m.drift_speed).1 i j -
          driftOffset g.ny g.nx (add_drift g.ny g.nx m.drift_vector m.drift_speed).1 / 2) -
          g.X i j) =
        (fun i j : ℕ => (add_drift g.ny g.nx m.drift_vector m.drift_speed).1 i j -
          driftOffset g.ny g.nx (add_drift g.ny g.nx m.drift_vector m.drift_speed).1 / 2) := by
      funext i j
      ring
    rw [hfX]
    exact hsX
  · have hfY : (fun i j : ℕ =>
        (g.Y i j + (add_drift g.ny g.nx m.drift_vector m.drift_speed).2 i j -
          driftOffset g.ny g.nx (add_drift g.ny g.nx m.drift_vector m.drift_speed).2 / 2) -
          g.Y i j) =
        (fun i j : ℕ => (add_drift g.ny g.nx m.drift_vector m.drift_speed).2 i j -
          driftOffset g.ny g.nx (add_drift g.ny g.nx m.drift_vector m.drift_speed).2 / 2) := by
      funext i j
      ring
    rw [hfY]
    exact hsY

/-- Witness for C7 at a concrete model and 2x2 grid. -/
theorem C7_centre_drift_witness : centreDriftInvariant witnessDriftModel witnessGrid :=
  C7_centre_drift witnessDriftModel witnessGrid (by norm_num [witnessDriftModel]) rfl
    (by norm_num [witnessGrid]) (by norm_num [witnessGrid])

/-- The jitter step does not change the grid dimensions. -/
lemma jitterStage_dims (m : ImageModel) (g : Grid) :
    (jitterStage m g).ny = g.ny ∧ (jitterStage m g).nx = g.nx := by
  unfold jitterStage
  split <;> exact ⟨rfl, rfl⟩

/-- The rotation step does not change the grid dimensions. -/
lemma rotationStage_dims (m : ImageModel) (g : Grid) :
    (rotationStage m g).ny = g.ny ∧ (rotationStage m g).nx = g.nx := by
  unfold rotationStage
  split <;> exact ⟨rfl, rfl⟩

/-- The drift step does not change the grid dimensions. -/
lemma driftStage_dims (m : ImageModel) (g : Grid) :
    (driftStage m g).ny = g.ny ∧ (driftStage m g).nx = g.nx := by
  unfold driftStage
  split
  · exact ⟨rfl, rfl⟩
  · split <;> exact ⟨rfl, rfl⟩

/-- The composed artifact stages preserve the base grid dimensions. -/
lemma stages_dims (m : ImageModel) (g : Grid) :
    (driftStage m (rotationStage m (jitterStage m g))).ny = g.ny ∧
    (driftStage m (rotationStage m (jitterStage m g))).nx = g.nx := by
  obtain ⟨j1, j2⟩ := jitterStage_dims m g
  obtain ⟨r1, r2⟩ := rotationStage_dims m (jitterStage m g)
  obtain ⟨d1, d2⟩ := driftStage_dims m (rotationStage m (jitterStage m g))
  exact ⟨by rw [d1, r1, j1], by rw [d2, r2, j2]⟩

/-- Successful grid construction on a nonempty atom list, with the base
dimensions. -/
lemma create_probe_positions_ok (m : ImageModel) (p : ℝ × ℝ) (ps : List (ℝ × ℝ))
    (h : m.atom_positions = p :: ps) :
    ∃ g : Grid, create_probe_positions m = Except.ok g ∧
      g.ny = gridNY m p ps ∧ g.nx = gridNX m p ps := by
  unfold create_probe_positions
  rw [baseGrid_cons m p ps h]
  simp only [Except.map]
  exact ⟨_, rfl, (stages_dims m _).1, (stages_dims m _).2⟩

/-- numpy stack of four equal shapes. -/
lemma stackShape_four (d : ℕ × ℕ) : stackShape [d, d, d, d] = Except.ok (4, d.1, d.2) := by
  simp [stackShape]

/-- C6: with nImages=4 over [0, 360), the series uses the scan angles 0,
90, 180, 270 (uniform spacing, upper bound excluded); every member shares
the one drift vector built from the single drift-angle draw; all member
grids have one common shape, and the stacked output has shape
(4, side, side) with side the minimum of the two axes, which equals the
minimum over all images of min(width, height) since the shapes agree. -/
theorem C6_rotation_series (s : SeriesArgs) (hn : s.nImages = 4) (h0 : s.minScanAngle = 0)
    (h360 : s.maxScanAngle = 360) (p : ℝ × ℝ) (ps : List (ℝ × ℝ))
    (hpos : s.atoms.positions = p :: ps) :
    ((seriesModel s 0).scan_rotation = 0 ∧ (seriesModel s 1).scan_rotation = 90 ∧
      (seriesModel s 2).scan_rotation = 180 ∧ (seriesModel s 3).scan_rotation = 270) ∧
    (∀ k k2 : ℕ, (seriesModel s k).drift_vector = (seriesModel s k2).drift_vector) ∧
    ∃ ny nx : ℕ,
      (∀ k : ℕ, (create_probe_positions (seriesModel s k)).map (fun g => (g.ny, g.nx)) =
        Except.ok (ny, nx)) ∧
      seriesStackShape s = Except.ok (4, min ny nx, min ny nx) := by
  have hang : ∀ k : ℕ, (seriesModel s k).scan_rotation = (k : ℝ) * 90 := by
    intro k
    show np_linspace s.minScanAngle s.maxScanAngle s.nImages k = (k : ℝ) * 90
    rw [np_linspace, h0, h360, hn]
    norm_num
  have hok : ∀ k : ℕ, ∃ g : Grid, create_probe_positions (seriesModel s k) = Except.ok g ∧
      g.ny = gridNY (seriesModel s 0) p ps ∧ g.nx = gridNX (seriesModel s 0) p ps := by
    intro k
    exact create_probe_positions_ok (seriesModel s k) p ps hpos
  refine ⟨⟨?_, ?_, ?_, ?_⟩, fun k k2 => rfl,
    gridNY (seriesModel s 0) p ps, gridNX (seriesModel s 0) p ps, ?_, ?_⟩
  · rw [hang 0]; norm_num
  · rw [hang 1]; norm_num
  · rw [hang 2]; norm_num
  · rw [hang 3]; norm_num
  · intro k
    obtain ⟨g, hg, h1, h2⟩ := hok k
    rw [hg]
    simp only [Except.map, h1, h2]
  · have helem : ∀ k : ℕ, (create_probe_positions (seriesModel s k)).map
        (fun g => (min g.ny g.nx, min g.ny g.nx)) =
        Except.ok (min (gridNY (seriesModel s 0) p ps) (gridNX (seriesModel s 0) p ps),
          min (gridNY (seriesModel s 0) p ps) (gridNX (seriesModel s 0) p ps)) := by
      intro k
      obtain ⟨g, hg, h1, h2⟩ := hok k
      rw [hg]
      simp only [Except.map, h1, h2]
    unfold seriesStackShape seriesTrimmedDims
    rw [hn, show List.range 4 = [0, 1, 2, 3] from rfl]
    simp only [List.mapM_cons, List.mapM_nil, helem 0, helem 1, helem 2, helem 3]
    exact stackShape_four _

/-- Witness for C6 on the concrete one-atom series arguments. -/
theorem C6_rotation_series_witness :
    ((seriesModel witnessSeriesArgs 0).scan_rotation = 0 ∧
      (seriesModel witnessSeriesArgs 1).scan_rotation = 90 ∧
      (seriesModel witnessSeriesArgs 2).scan_rotation = 180 ∧
      (seriesModel witnessSeriesArgs 3).scan_rotation = 270) ∧
    (∀ k k2 : ℕ, (seriesModel witnessSeriesArgs k).drift_vector =
      (seriesModel witnessSeriesArgs k2).drift_vector) ∧
    ∃ ny nx : ℕ,
      (∀ k : ℕ, (create_probe_positions (seriesModel witnessSeriesArgs k)).map
        (fun g => (g.ny, g.nx)) = Except.ok (ny, nx)) ∧
      seriesStackShape witnessSeriesArgs = Except.ok (4, min ny nx, min ny nx) :=
  C6_rotation_series witnessSeriesArgs rfl rfl rfl (0, 0) [] rfl

end

end GenSTEM
